import Mathlib

/-!
Shallow embedding of `src/pdf/cssselect2/parser.py`, a recursive-descent
CSS selector parser producing an AST annotated with specificity triples.

Tokens are tinycss2 component values: the parser only inspects a token's
`type` tag, its value / case-folded value, the `is_identifier` flag of
hash tokens, and the nested content of bracket blocks and function tokens,
so the `Token` type below carries exactly those fields.  The Python
`TokenStream` is a single-lookahead cursor over the token sequence; it is
modelled by passing the remaining `List Token` explicitly, with `peek`
being the head and `next` dropping the head.  A raised `SelectorError` is
modelled as the `.selector` case of `PError`; Python exceptions that are
not `SelectorError` (attribute errors on `None`, an exhausted recursion)
are the `.crash` case, which forgiving mode must not catch.  Since the
source recurses through nested token sequences, the Lean functions take a
fuel argument; every recursive call decreases it, and running out of fuel
is a `.crash` (never a `SelectorError`), so no theorem about
`SelectorError` behaviour can be an artefact of fuel exhaustion.
-/

/-- One tinycss2 component value, restricted to the fields the parser reads. -/
inductive Token where
  | ident (value lowerValue : String)
  | hash (value : String) (isIdentifier : Bool)
  | str (value : String)
  | lit (value : String)
  | block (content : List Token)
  | func (lowerName : String) (arguments : List Token)
  | ws
  | comment

/-- The `type` tag of a component value, as the strings the source compares. -/
def Token.type : Token → String
  | .ident _ _ => "ident"
  | .hash _ _ => "hash"
  | .str _ => "string"
  | .lit _ => "literal"
  | .block _ => "[] block"
  | .func _ _ => "function"
  | .ws => "whitespace"
  | .comment => "comment"

/-- tinycss2 equality of a token with a string: only a `LiteralToken`
compares equal to its value (`peek == ','` and similar in the source). -/
def Token.eqStr : Token → String → Bool
  | .lit v, s => v == s
  | _, _ => false

/-- The `value` of a literal token (used after an `eqStr` test succeeded). -/
def litVal : Token → String
  | .lit v => v
  | _ => ""

/-- `tokens.peek() == s` where `peek` may be `None` (then the comparison is false). -/
def headEqStr (toks : List Token) (s : String) : Bool :=
  match toks with
  | [] => false
  | t :: _ => t.eqStr s

/-- Errors: `.selector` is a raised `SelectorError` carrying the offending
token (or `none` at end of input) and the message; `.crash` is any other
Python exception, which `except SelectorError` does not catch. -/
inductive PError where
  | selector (token : Option Token) (message : String)
  | crash (message : String)

/-- `TokenStream.skip`: drop leading tokens of the given types, reporting
whether any was dropped. -/
def skipGo (types : List String) : List Token → Bool → List Token × Bool
  | [], found => ([], found)
  | t :: rest, found =>
      if types.contains t.type then skipGo types rest true else (t :: rest, found)

def skip_whitespace (toks : List Token) : List Token × Bool :=
  skipGo ["whitespace"] toks false

def skip_comment (toks : List Token) : List Token × Bool :=
  skipGo ["comment"] toks false

def skip_whitespace_and_comment (toks : List Token) : List Token × Bool :=
  skipGo ["comment", "whitespace"] toks false

/-- Lines 60-63 of the source: skip whitespace, then alternately comments
and whitespace, remembering whether any whitespace token was seen. -/
def skipWsCm : List Token → List Token × Bool
  | .ws :: rest => ((skipWsCm rest).1, true)
  | .comment :: rest => skipWsCm rest
  | toks => (toks, false)

/-- `SUPPORTED_PSEUDO_ELEMENTS` of the source. -/
def SUPPORTED_PSEUDO_ELEMENTS : List String :=
  ["first-line", "first-letter", "prefix", "postfix", "selection",
   "target-text", "spelling-error", "grammar-error", "before", "after",
   "marker", "placeholder", "file-selector-button",
   "footnote-call", "footnote-marker", "content", "shadow"]

/-- The caller-supplied namespace mapping: `none` keys the default namespace. -/
abbrev NS := List (Option String × String)

/-- `namespaces.get(key)` on the mapping. -/
def nsGet (namespaces : NS) (key : Option String) : Option String :=
  (namespaces.find? (fun p => p.1 == key)).map (·.2)

/-- A specificity triple. -/
abbrev Spec := Nat × Nat × Nat

/-- Componentwise sum of two specificity triples. -/
def addSpec (x y : Spec) : Spec :=
  (x.1 + y.1, x.2.1 + y.2.1, x.2.2 + y.2.2)

/-- Python `<` on 3-tuples: lexicographic strict order. -/
def specLt (x y : Spec) : Bool :=
  decide (x.1 < y.1)
    || (decide (x.1 = y.1)
        && (decide (x.2.1 < y.2.1)
            || (decide (x.2.1 = y.2.1) && decide (x.2.2 < y.2.2))))

/-- Python `max` of a nonempty sequence, seeded with its first element:
scan the rest, replacing the current maximum on a strictly greater value. -/
def pyMax (m : Spec) : List Spec → Spec
  | [] => m
  | x :: rest => pyMax (cond (specLt m x) x m) rest

/-- `max(...)` of a specificity list when nonempty, `(0, 0, 0)` when empty
(the guard `if self.selector_list` in the source). -/
def pyMaxZero : List Spec → Spec
  | [] => (0, 0, 0)
  | x :: rest => pyMax x rest

/-- Componentwise sum of a list of triples (`tuple(map(sum, zip(*...)))`,
which also yields `(0, 0, 0)` on the empty compound). -/
def sumSpecs : List Spec → Spec
  | [] => (0, 0, 0)
  | x :: rest => addSpec x (sumSpecs rest)

mutual
/-- A `Selector` (tree plus optional pseudo-element) or a `RelativeSelector`
wrapping one, as yielded by the top-level `parse`. -/
inductive ParsedSelector where
  | sel (tree : STree) (pseudoElement : Option String)
  | rel (combinator : String) (selector : ParsedSelector)
/-- A `CompoundSelector` or `CombinedSelector` tree. -/
inductive STree where
  | compound (simpleSelectors : List Simple)
  | combined (left : STree) (combinator : String) (right : STree)
/-- The simple selector classes of the source. -/
inductive Simple where
  | localName (name lowerName : String)
  | nsSel (ns : String)
  | idSel (ident : String)
  | classSel (className : String)
  | attr (ns : Option String) (name lowerName : String) (op : Option String) (value : Option String)
  | pseudoClass (name : String)
  | funcPseudo (name : String) (arguments : List Token)
  | negation (selectorList : List ParsedSelector)
  | relational (selectorList : List ParsedSelector)
  | matchesAny (selectorList : List ParsedSelector)
  | specAdjust (selectorList : List ParsedSelector)
end

mutual
/-- `Selector.specificity` / `RelativeSelector.specificity`. -/
def ParsedSelector.specificity : ParsedSelector → Spec
  | .sel t none => t.specificity
  | .sel t (some _) => (t.specificity.1, t.specificity.2.1, t.specificity.2.2 + 1)
  | .rel _ s => s.specificity
/-- `CompoundSelector.specificity` / `CombinedSelector.specificity`. -/
def STree.specificity : STree → Spec
  | .compound ss => sumSpecs (simpleSpecList ss)
  | .combined l _ r => addSpec l.specificity r.specificity
/-- The `specificity` attribute of each simple selector class. -/
def Simple.specificity : Simple → Spec
  | .localName _ _ => (0, 0, 1)
  | .nsSel _ => (0, 0, 0)
  | .idSel _ => (1, 0, 0)
  | .classSel _ => (0, 1, 0)
  | .attr _ _ _ _ _ => (0, 1, 0)
  | .pseudoClass _ => (0, 1, 0)
  | .funcPseudo _ _ => (0, 1, 0)
  | .negation l => pyMaxZero (specList l)
  | .relational l => pyMaxZero (specList l)
  | .matchesAny l => pyMaxZero (specList l)
  | .specAdjust _ => (0, 0, 0)
/-- The specificities of the members of a selector list. -/
def specList : List ParsedSelector → List Spec
  | [] => []
  | s :: rest => s.specificity :: specList rest
/-- The specificities of the members of a compound. -/
def simpleSpecList : List Simple → List Spec
  | [] => []
  | s :: rest => s.specificity :: simpleSpecList rest
end

/-- `pseudo_element` of a parse result (`RelativeSelector` delegates). -/
def ParsedSelector.pseudoElement : ParsedSelector → Option String
  | .sel _ p => p
  | .rel _ s => s.pseudoElement

/-- `parsed_tree` of a parse result, through a `RelativeSelector` wrapper. -/
def ParsedSelector.tree : ParsedSelector → STree
  | .sel t _ => t
  | .rel _ s => s.tree

/-- The result of `parse_qualified_name`: `none` when no qualified name was
found, otherwise `(namespace-or-null, local-name-or-null)` where the local
name keeps both the literal and the case-folded spelling. -/
abbrev QName := Option String × Option (String × String)

/-- The tail of `parse_qualified_name`, entered once a `|` was consumed:
require an ident (or, outside attributes, a `*`) as the local name.  A
`None` from the stream hits `next.type` in the source and crashes. -/
def qnameLocal (ns : Option String) (toks : List Token) (isAttribute : Bool) :
    Except (PError × List Token) (Option QName × List Token) :=
  match toks with
  | [] => .error (.crash "NoneType object has no attribute type", [])
  | .ident v lv :: rest => .ok (some (ns, some (v, lv)), rest)
  | t :: rest =>
      if t.eqStr "*" && !isAttribute then .ok (some (ns, none), rest)
      else .error (.selector (some t) ("expected local name, got " ++ t.type), rest)

/-- `parse_qualified_name`.  On an error the returned list is the stream
position at the raise, which the forgiving top-level loop resumes from. -/
def parse_qualified_name (toks : List Token) (namespaces : NS) (isAttribute : Bool) :
    Except (PError × List Token) (Option QName × List Token) :=
  match toks with
  | [] => .ok (none, [])
  | .ident v lv :: rest =>
      if headEqStr rest "|" then
        match nsGet namespaces (some v) with
        | none =>
            .error (.selector (some (.ident v lv)) ("undefined namespace prefix: " ++ v),
                    rest.drop 1)
        | some nsv => qnameLocal (some nsv) (rest.drop 1) isAttribute
      else
        .ok (some ((if isAttribute then some "" else nsGet namespaces none), some (v, lv)), rest)
  | t :: rest =>
      if t.eqStr "*" then
        if headEqStr rest "|" then qnameLocal none (rest.drop 1) isAttribute
        else if isAttribute then
          .error (.selector (some t) ("expected local name, got " ++ t.type), rest)
        else .ok (some (nsGet namespaces none, none), rest)
      else if t.eqStr "|" then
        qnameLocal (some "") rest isAttribute
      else .ok (none, t :: rest)

/-- `parse_type_selector` without the simple-selector list construction is
just the whitespace skip plus `parse_qualified_name`; the construction of
`LocalNameSelector` / `NamespaceSelector` follows the source. -/
def parse_type_selector (toks : List Token) (namespaces : NS) :
    Except (PError × List Token) (Option (List Simple) × List Token) :=
  let toks1 := (skip_whitespace toks).1
  match parse_qualified_name toks1 namespaces false with
  | .error e => .error e
  | .ok (none, rest) => .ok (none, rest)
  | .ok (some (ns, localOpt), rest) =>
      let l1 : List Simple := match localOpt with
        | some (v, lv) => [.localName v lv]
        | none => []
      let l2 : List Simple := match ns with
        | some n => [.nsSel n]
        | none => []
      .ok (some (l1 ++ l2), rest)

/-- The body of `parse_attribute_selector` up to (not including) the final
exhaustion check: qualified name, optional operator from the fixed set,
then an ident-or-string value.  Returns the constructed selector and the
tokens left in the bracket block's own stream. -/
def parse_attribute_inner (toks : List Token) (namespaces : NS) :
    Except PError (Simple × List Token) :=
  let toks1 := (skip_whitespace toks).1
  match parse_qualified_name toks1 namespaces true with
  | .error (e, _) => .error e
  | .ok (none, rest) =>
      match rest with
      | [] => .error (.selector none "expected attribute name, got None")
      | t :: _ => .error (.selector (some t) ("expected attribute name, got " ++ t.type))
  | .ok (some (ns, localOpt), rest) =>
      match localOpt with
      | none => .error (.crash "cannot unpack non-iterable NoneType object")
      | some (nm, lnm) =>
        let rest1 := (skip_whitespace rest).1
        match rest1 with
        | [] => .ok (.attr ns nm lnm none none, [])
        | peek :: rest2 =>
          if ["=", "~=", "|=", "^=", "$=", "*="].any (fun s => peek.eqStr s) then
            let rest3 := (skip_whitespace rest2).1
            match rest3 with
            | [] => .error (.selector none "expected attribute value, got None")
            | .ident v _ :: rest4 => .ok (.attr ns nm lnm (some (litVal peek)) (some v), rest4)
            | .str v :: rest4 => .ok (.attr ns nm lnm (some (litVal peek)) (some v), rest4)
            | n :: _ => .error (.selector (some n) ("expected attribute value, got " ++ n.type))
          else
            .error (.selector (some peek) ("expected attribute selector operator, got " ++ peek.type))

/-- `parse_attribute_selector`: the inner parse followed by the trailing
check that the bracket block's stream is exhausted. -/
def parse_attribute_selector (toks : List Token) (namespaces : NS) :
    Except PError Simple :=
  match parse_attribute_inner toks namespaces with
  | .error e => .error e
  | .ok (a, rest) =>
      match (skip_whitespace rest).1 with
      | [] => .ok a
      | t :: _ => .error (.selector (some t) ("expected ], got " ++ t.type))

mutual
/-- The top-level generator `parse`, modelled as the list of selectors it
yields plus the exception, if any, that ends it.  A `SelectorError` from
the first branch returns immediately in forgiving mode (line 32 of the
source); later branches are handled by the comma loop. -/
def parseTop (fuel : Nat) (input : List Token) (namespaces : NS)
    (forgiving relative : Bool) : List ParsedSelector × Option PError :=
  match fuel with
  | 0 => ([], some (.crash "maximum recursion depth exceeded"))
  | fuel + 1 =>
    match parse_selector fuel input namespaces relative with
    | .error (.selector t m, _) =>
        if forgiving then ([], none) else ([], some (.selector t m))
    | .error (.crash m, _) => ([], some (.crash m))
    | .ok (s, rest) =>
        let r := parseTopLoop fuel rest namespaces forgiving relative
        (s :: r.1, r.2)

/-- The `while 1` loop of `parse`: read a token; end at end of input; on a
comma parse the next branch (skipping its `SelectorError` in forgiving
mode, resuming at the raise position); on any other token raise in strict
mode and skip the token in forgiving mode. -/
def parseTopLoop (fuel : Nat) (toks : List Token) (namespaces : NS)
    (forgiving relative : Bool) : List ParsedSelector × Option PError :=
  match fuel with
  | 0 => ([], some (.crash "maximum recursion depth exceeded"))
  | fuel + 1 =>
    match toks with
    | [] => ([], none)
    | t :: rest =>
      if t.eqStr "," then
        match parse_selector fuel rest namespaces relative with
        | .ok (s, rest2) =>
            let r := parseTopLoop fuel rest2 namespaces forgiving relative
            (s :: r.1, r.2)
        | .error (.selector tk m, rest2) =>
            if forgiving then parseTopLoop fuel rest2 namespaces forgiving relative
            else ([], some (.selector tk m))
        | .error (.crash m, _) => ([], some (.crash m))
      else
        if forgiving then parseTopLoop fuel rest namespaces forgiving relative
        else ([], some (.selector (some t) ("unexpected " ++ t.type ++ " token.")))

/-- `parse_selector`: leading whitespace/comments, the optional leading
combinator of relative mode, the first compound, then the combinator loop. -/
def parse_selector (fuel : Nat) (toks : List Token) (namespaces : NS) (relative : Bool) :
    Except (PError × List Token) (ParsedSelector × List Token) :=
  match fuel with
  | 0 => .error (.crash "maximum recursion depth exceeded", toks)
  | fuel + 1 =>
    let toks1 := (skip_whitespace_and_comment toks).1
    let start : String × List Token :=
      if relative then
        match toks1 with
        | t :: rest =>
            if t.eqStr ">" || t.eqStr "+" || t.eqStr "~" then
              (litVal t, (skip_whitespace_and_comment rest).1)
            else (" ", (skip_whitespace_and_comment toks1).1)
        | [] => (" ", toks1)
      else (" ", toks1)
    match parse_compound_selector fuel start.2 namespaces with
    | .error e => .error e
    | .ok ((result, pe), rest) =>
        parseSelectorLoop fuel namespaces relative start.1 result pe rest

/-- The `while 1` loop of `parse_selector`: skip whitespace and comments,
return on a pseudo-element, a comma, end of input, or the absence of any
combinator; otherwise parse the next compound and fold it into a left-deep
`CombinedSelector`. -/
def parseSelectorLoop (fuel : Nat) (namespaces : NS) (relative : Bool)
    (initialComb : String) (result : STree) (pe : Option String) (toks : List Token) :
    Except (PError × List Token) (ParsedSelector × List Token) :=
  match fuel with
  | 0 => .error (.crash "maximum recursion depth exceeded", toks)
  | fuel + 1 =>
    match skipWsCm toks with
    | (toks2, hasWs) =>
      let sel0 : ParsedSelector := .sel result pe
      let selector : ParsedSelector := if relative then .rel initialComb sel0 else sel0
      match pe with
      | some _ => .ok (selector, toks2)
      | none =>
        match toks2 with
        | [] => .ok (selector, [])
        | peek :: rest =>
          if peek.eqStr "," then .ok (selector, peek :: rest)
          else if peek.eqStr ">" || peek.eqStr "+" || peek.eqStr "~" then
            match parse_compound_selector fuel rest namespaces with
            | .error e => .error e
            | .ok ((compound, pe2), rest2) =>
                parseSelectorLoop fuel namespaces relative initialComb
                  (.combined result (litVal peek) compound) pe2 rest2
          else if hasWs then
            match parse_compound_selector fuel (peek :: rest) namespaces with
            | .error e => .error e
            | .ok ((compound, pe2), rest2) =>
                parseSelectorLoop fuel namespaces relative initialComb
                  (.combined result " " compound) pe2 rest2
          else .ok (selector, peek :: rest)

/-- `parse_compound_selector`: a type selector, then simple selectors until
a pseudo-element or nothing more; empty compounds raise. -/
def parse_compound_selector (fuel : Nat) (toks : List Token) (namespaces : NS) :
    Except (PError × List Token) ((STree × Option String) × List Token) :=
  match fuel with
  | 0 => .error (.crash "maximum recursion depth exceeded", toks)
  | fuel + 1 =>
    match parse_type_selector toks namespaces with
    | .error e => .error e
    | .ok (typeSels, rest) =>
      match parseCompoundLoop fuel rest namespaces (typeSels.getD []) with
      | .error e => .error e
      | .ok ((simples, pe), rest2) =>
        if !simples.isEmpty || typeSels.isSome || pe.isSome then
          .ok ((.compound simples, pe), rest2)
        else
          match rest2 with
          | [] => .error (.selector none "expected a compound selector, got EOF", [])
          | t :: rest3 =>
              .error (.selector (some t) ("expected a compound selector, got " ++ t.type),
                      t :: rest3)

/-- The `while 1` loop of `parse_compound_selector`, accumulating simple
selectors until `parse_simple_selector` reports a pseudo-element or nothing. -/
def parseCompoundLoop (fuel : Nat) (toks : List Token) (namespaces : NS)
    (acc : List Simple) :
    Except (PError × List Token) ((List Simple × Option String) × List Token) :=
  match fuel with
  | 0 => .error (.crash "maximum recursion depth exceeded", toks)
  | fuel + 1 =>
    match parse_simple_selector fuel toks namespaces with
    | .error e => .error e
    | .ok ((simple, pe), rest) =>
      match pe with
      | some p => .ok ((acc, some p), rest)
      | none =>
        match simple with
        | none => .ok ((acc, none), rest)
        | some s => parseCompoundLoop fuel rest namespaces (acc ++ [s])

/-- `parse_simple_selector`: dispatch on the peeked token; returns either a
simple selector, a pseudo-element name, or neither (end of the compound). -/
def parse_simple_selector (fuel : Nat) (toks : List Token) (namespaces : NS) :
    Except (PError × List Token) ((Option Simple × Option String) × List Token) :=
  match fuel with
  | 0 => .error (.crash "maximum recursion depth exceeded", toks)
  | fuel + 1 =>
    match toks with
    | [] => .ok ((none, none), [])
    | peek :: rest =>
      match peek with
      | .hash v isIdent =>
          if isIdent then .ok ((some (.idSel v), none), rest)
          else .ok ((none, none), peek :: rest)
      | .block content =>
          match parse_attribute_selector content namespaces with
          | .error e => .error (e, rest)
          | .ok a => .ok ((some a, none), rest)
      | _ =>
        if peek.eqStr "." then
          match rest with
          | .ident v _ :: rest2 => .ok ((some (.classSel v), none), rest2)
          | t :: rest2 => .error (.selector (some t) "Expected a class name", rest2)
          | [] => .error (.selector none "Expected a class name, got None", [])
        else if peek.eqStr ":" then
          match rest with
          | [] => .error (.selector none "unexpected None token.", [])
          | n :: rest2 =>
            if n.eqStr ":" then
              match rest2 with
              | .ident v lv :: rest3 =>
                  if SUPPORTED_PSEUDO_ELEMENTS.contains lv then .ok ((none, some lv), rest3)
                  else
                    .error (.selector (some (.ident v lv))
                      ("Expected a supported pseudo-element, got " ++ lv), rest3)
              | t :: rest3 =>
                  .error (.selector (some t) "Expected a pseudo-element name", rest3)
              | [] => .error (.selector none "Expected a pseudo-element name, got None", [])
            else
              match n with
              | .ident _ lv =>
                  if lv == "before" || lv == "after" || lv == "first-line"
                      || lv == "first-letter" then
                    .ok ((none, some lv), rest2)
                  else .ok ((some (.pseudoClass lv), none), rest2)
              | .func fname args =>
                  if fname == "is" || fname == "where" || fname == "not"
                      || fname == "has" then
                    match parse_logical_combination fuel args namespaces fname with
                    | .error e => .error (e, rest2)
                    | .ok s => .ok ((some s, none), rest2)
                  else .ok ((some (.funcPseudo fname args), none), rest2)
              | _ => .error (.selector (some n) "unexpected token.", rest2)
        else .ok ((none, none), peek :: rest)

/-- `parse_logical_combination`: re-enter the top-level parse on the
function token's arguments, forgiving except for `:not()`, relative for
`:has()`, keep only branches without a pseudo-element, and wrap in the
class matching the name. -/
def parse_logical_combination (fuel : Nat) (arguments : List Token) (namespaces : NS)
    (name : String) : Except PError Simple :=
  match fuel with
  | 0 => .error (.crash "maximum recursion depth exceeded")
  | fuel + 1 =>
    if name == "is" || name == "where" || name == "not" || name == "has" then
      let forgiving := !(name == "not")
      let relative := name == "has"
      match parseTop fuel arguments namespaces forgiving relative with
      | (_, some e) => .error e
      | (sels, none) =>
          let kept := sels.filter (fun s => s.pseudoElement.isNone)
          .ok (if name == "is" then .matchesAny kept
               else if name == "where" then .specAdjust kept
               else if name == "not" then .negation kept
               else .relational kept)
    else .error (.crash "local variable selector_class referenced before assignment")
end

/-- Tokenization of `.a, ???, #b` (the argument list of the spec's
`:is(.a, ???, #b)` example; `???` is three question-mark delimiters). -/
def toksForgiving : List Token :=
  [.lit ".", .ident "a" "a", .lit ",", .ws, .lit "?", .lit "?", .lit "?", .lit ",", .ws,
   .hash "b" true]

/-- Tokenization of `?, #b`: an invalid first branch, then a valid branch. -/
def toksFirstBad : List Token :=
  [.lit "?", .lit ",", .ws, .hash "b" true]

/-- Tokenization of `a::before > b`. -/
def toksPseudoComb : List Token :=
  [.ident "a" "a", .lit ":", .lit ":", .ident "before" "before", .ws, .lit ">", .ws,
   .ident "b" "b"]

/-- Tokenization of `a::before`. -/
def toksABefore : List Token :=
  [.ident "a" "a", .lit ":", .lit ":", .ident "before" "before"]

/-- Tokenization of `a b > c`. -/
def toksABC : List Token :=
  [.ident "a" "a", .ws, .ident "b" "b", .ws, .lit ">", .ws, .ident "c" "c"]

/-- The left-deep tree `(a b) > c`. -/
def treeABC : STree :=
  .combined (.combined (.compound [.localName "a" "a"]) " " (.compound [.localName "b" "b"]))
    ">" (.compound [.localName "c" "c"])

/-- Tokenization of `:not(.a, ?)`. -/
def toksNotTop : List Token :=
  [.lit ":", .func "not" [.lit ".", .ident "a" "a", .lit ",", .ws, .lit "?"]]

/-- Tokenization of `:is(.z, :not(?))`. -/
def toksIsNotTop : List Token :=
  [.lit ":", .func "is" [.lit ".", .ident "z" "z", .lit ",", .ws, .lit ":",
     .func "not" [.lit "?"]]]

/-- A namespace mapping binding the `svg` prefix. -/
def svgNS : NS := [(some "svg", "http://www.w3.org/2000/svg")]

/-- A namespace mapping binding the `ns` prefix. -/
def nsMapX : NS := [(some "ns", "http://x")]

/-- C1. The claim asserts that in forgiving mode every failing branch is
skipped and all remaining comma-separated branches are still yielded, even
when the very first branch is invalid.  It is false at `?, #b`: the
`except SelectorError` around the first branch returns from the generator
outright in forgiving mode, so nothing at all is yielded, although the
remaining branch `#b` alone parses fine in strict mode. -/
theorem c1_counterexample :
    parseTop 50 toksFirstBad [] true false = ([], none)
    ∧ parseTop 50 [.hash "b" true] [] false false
        = ([.sel (.compound [.idSel "b"]) none], none) :=
  ⟨rfl, rfl⟩

/-- C1 (amended): when a branch other than the first raises a
`SelectorError` in forgiving mode, the failing branch is skipped — the
loop resumes at the raise position and discards tokens up to the next
top-level comma — and the remaining branches are yielded (it is only a
failure of the very first branch that ends the sequence).  In particular
the forgiving parse of `.a, ???, #b` yields exactly the `.a` and `#b`
branches, while the strict parse of the same input raises the first
error, carrying the first `?` token, and yields nothing further. -/
theorem c1_forgiving_skips_later_branches :
    parseTop 50 toksForgiving [] true false
      = ([.sel (.compound [.classSel "a"]) none, .sel (.compound [.idSel "b"]) none], none)
    ∧ parseTop 50 toksForgiving [] false false
      = ([.sel (.compound [.classSel "a"]) none],
         some (.selector (some (.lit "?")) "expected a compound selector, got literal")) :=
  ⟨rfl, rfl⟩

/-- C2. A branch ending in a pseudo-element stops at the pseudo-element:
whatever the state of the combinator loop, once `parse_compound_selector`
reports a pseudo-element the loop returns the selector immediately after
the whitespace/comment skip, consuming no combinator.  Consequently the
strict parse of `a::before > b` yields the `a::before` selector and then
raises a `SelectorError` carrying the unexpected `>` token. -/
theorem c2_pseudo_element_stops_branch :
    (∀ (fuel : Nat) (namespaces : NS) (relative : Bool) (initialComb : String)
        (result : STree) (p : String) (toks : List Token),
      parseSelectorLoop (fuel + 1) namespaces relative initialComb result (some p) toks
        = .ok ((if relative then .rel initialComb (.sel result (some p))
                else .sel result (some p)), (skipWsCm toks).1))
    ∧ parseTop 50 toksPseudoComb [] false false
      = ([.sel (.compound [.localName "a" "a"]) (some "before")],
         some (.selector (some (.lit ">")) "unexpected literal token.")) := by
  refine ⟨?_, rfl⟩
  intro fuel namespaces relative initialComb result p toks
  rcases h : skipWsCm toks with ⟨toks2, hasWs⟩
  simp [parseSelectorLoop, h]

/-- C5. Specificity composition: a `Selector` without pseudo-element has
its tree's specificity; with a pseudo-element the third component gains
one; a `CombinedSelector`'s specificity is the componentwise sum of its
subtrees'; and the parse of `a::before` yields a selector of specificity
`(0, 0, 2)`. -/
theorem c5_specificity_composition :
    (∀ t : STree, (ParsedSelector.sel t none).specificity = t.specificity)
    ∧ (∀ (t : STree) (p : String), (ParsedSelector.sel t (some p)).specificity
        = (t.specificity.1, t.specificity.2.1, t.specificity.2.2 + 1))
    ∧ (∀ (l : STree) (c : String) (r : STree), (STree.combined l c r).specificity
        = (l.specificity.1 + r.specificity.1, l.specificity.2.1 + r.specificity.2.1,
           l.specificity.2.2 + r.specificity.2.2))
    ∧ parseTop 50 toksABefore [] false false
        = ([.sel (.compound [.localName "a" "a"]) (some "before")], none)
    ∧ (ParsedSelector.sel (.compound [.localName "a" "a"]) (some "before")).specificity
        = (0, 0, 2) :=
  ⟨fun _ => rfl, fun _ _ => rfl, fun _ _ _ => rfl, rfl, rfl⟩

/-- C7. Qualified-name resolution under the mapping `{svg: "http://www.w3.org/2000/svg"}`:
`svg|rect` resolves to that URI with local name `rect`; `|rect` resolves
to the empty-string ("no namespace") with local name `rect`; the
undefined prefix in `foo|rect` raises a `SelectorError` carrying the
prefix token. -/
theorem c7_qualified_name_resolution :
    parse_qualified_name [.ident "svg" "svg", .lit "|", .ident "rect" "rect"] svgNS false
      = .ok (some (some "http://www.w3.org/2000/svg", some ("rect", "rect")), [])
    ∧ parse_qualified_name [.lit "|", .ident "rect" "rect"] svgNS false
      = .ok (some (some "", some ("rect", "rect")), [])
    ∧ parse_qualified_name [.ident "foo" "foo", .lit "|", .ident "rect" "rect"] svgNS false
      = .error (.selector (some (.ident "foo" "foo")) "undefined namespace prefix: foo",
                [.ident "rect" "rect"]) :=
  ⟨rfl, rfl, rfl⟩

/-- C10. A hash token whose is-valid-identifier flag is false never becomes
an `IDSelector` and never raises by itself: `parse_simple_selector`
returns no simple selector and no pseudo-element on it, consuming
nothing; hence a selector consisting solely of such a hash token fails in
strict mode with the expected-a-compound-selector error carrying that
token. -/
theorem c10_invalid_hash :
    (∀ (fuel : Nat) (v : String) (toks : List Token) (namespaces : NS),
      parse_simple_selector (fuel + 1) (.hash v false :: toks) namespaces
        = .ok ((none, none), .hash v false :: toks))
    ∧ parseTop 50 [.hash "b" false] [] false false
      = ([], some (.selector (some (.hash "b" false)) "expected a compound selector, got hash")) :=
  ⟨fun _ _ _ _ => rfl, rfl⟩

/-- `specLt` unfolded to the lexicographic order proposition. -/
theorem specLt_iff (x y : Spec) :
    specLt x y = true ↔
      (x.1 < y.1 ∨ (x.1 = y.1 ∧ (x.2.1 < y.2.1 ∨ (x.2.1 = y.2.1 ∧ x.2.2 < y.2.2)))) := by
  simp [specLt]

/-- `specLt` is false exactly when the lexicographic order does not hold. -/
theorem specLt_false_iff (x y : Spec) :
    specLt x y = false ↔
      ¬ (x.1 < y.1 ∨ (x.1 = y.1 ∧ (x.2.1 < y.2.1 ∨ (x.2.1 = y.2.1 ∧ x.2.2 < y.2.2)))) := by
  rw [Bool.eq_false_iff]
  exact not_congr (specLt_iff x y)

/-- `specLt` is irreflexive. -/
theorem specLt_irrefl (x : Spec) : specLt x x = false := by
  rw [specLt_false_iff]; omega

/-- Not-less is transitive for the lexicographic order. -/
theorem specLt_false_trans {a b c : Spec} (h1 : specLt a b = false)
    (h2 : specLt b c = false) : specLt a c = false := by
  rw [specLt_false_iff] at h1 h2 ⊢; omega

/-- If `m` is strictly below `x` and `p` is not strictly below `x`,
then `p` is not strictly below `m`. -/
theorem specLt_false_of_lt {p m x : Spec} (h1 : specLt m x = true)
    (h2 : specLt p x = false) : specLt p m = false := by
  rw [specLt_iff] at h1
  rw [specLt_false_iff] at h2 ⊢
  omega

/-- A Python `max` scan returns its seed or an element of the list. -/
theorem pyMax_eq_or_mem (l : List Spec) : ∀ m, pyMax m l = m ∨ pyMax m l ∈ l := by
  induction l with
  | nil => exact fun m => .inl rfl
  | cons x r ih =>
    intro m
    simp only [pyMax]
    cases hmx : specLt m x with
    | true =>
      rcases ih x with h | h
      · simp only [hmx, cond_true] at *
        exact .inr (by simp [h])
      · exact .inr (List.mem_cons_of_mem _ (by simpa [hmx] using h))
    | false =>
      rcases ih m with h | h
      · exact .inl (by simpa [hmx] using h)
      · exact .inr (List.mem_cons_of_mem _ (by simpa [hmx] using h))

/-- A Python `max` scan is lexicographically below neither its seed nor
any element of the list. -/
theorem pyMax_not_lt (l : List Spec) :
    ∀ m, specLt (pyMax m l) m = false ∧ ∀ x ∈ l, specLt (pyMax m l) x = false := by
  induction l with
  | nil => exact fun m => ⟨specLt_irrefl m, by simp⟩
  | cons x r ih =>
    intro m
    simp only [pyMax]
    cases hmx : specLt m x with
    | true =>
      obtain ⟨h1, h2⟩ := ih x
      simp only [hmx, cond_true]
      refine ⟨specLt_false_of_lt hmx h1, ?_⟩
      intro y hy
      rcases List.mem_cons.mp hy with rfl | hy
      · exact h1
      · exact h2 y hy
    | false =>
      obtain ⟨h1, h2⟩ := ih m
      simp only [hmx, cond_false]
      refine ⟨h1, ?_⟩
      intro y hy
      rcases List.mem_cons.mp hy with rfl | hy
      · exact specLt_false_trans h1 hmx
      · exact h2 y hy

/-- Member selectors contribute their specificity to `specList`. -/
theorem mem_specList {s : ParsedSelector} {l : List ParsedSelector} (h : s ∈ l) :
    s.specificity ∈ specList l := by
  induction l with
  | nil => cases h
  | cons x r ih =>
    rcases List.mem_cons.mp h with rfl | h
    · simp [specList]
    · simp [specList, ih h]

/-- C3. The specificity of `:not`, `:has` and `:is` nodes is the Python
`max` — the lexicographic maximum — of the member specificities: the
three classes share one computation, it returns `(0, 0, 0)` on the empty
list, otherwise it returns the specificity of some member and no member's
specificity is lexicographically greater.  The specificity of a `:where`
node is `(0, 0, 0)` regardless of its list. -/
theorem c3_logical_specificity (l : List ParsedSelector) :
    (Simple.specAdjust l).specificity = (0, 0, 0)
    ∧ (Simple.relational l).specificity = (Simple.negation l).specificity
    ∧ (Simple.matchesAny l).specificity = (Simple.negation l).specificity
    ∧ (l = [] → (Simple.negation l).specificity = (0, 0, 0))
    ∧ (l ≠ [] → (Simple.negation l).specificity ∈ specList l)
    ∧ (∀ s ∈ l, specLt (Simple.negation l).specificity s.specificity = false) := by
  refine ⟨rfl, rfl, rfl, ?_, ?_, ?_⟩
  · rintro rfl; rfl
  · intro hne
    match l with
    | [] => exact absurd rfl hne
    | x :: r =>
      show pyMaxZero (specList (x :: r)) ∈ specList (x :: r)
      simp only [specList, pyMaxZero]
      rcases pyMax_eq_or_mem (specList r) x.specificity with h | h
      · simp [h]
      · simp [h]
  · intro s hs
    match l with
    | [] => cases hs
    | x :: r =>
      show specLt (pyMaxZero (specList (x :: r))) s.specificity = false
      simp only [specList, pyMaxZero]
      obtain ⟨h1, h2⟩ := pyMax_not_lt (specList r) x.specificity
      rcases List.mem_cons.mp hs with rfl | hs
      · exact h1
      · exact h2 _ (mem_specList hs)

/-- Witness for C3 at the empty list and at a singleton list. -/
theorem c3_logical_specificity_witness :
    (Simple.negation []).specificity = (0, 0, 0)
    ∧ (Simple.negation [.sel (.compound [.idSel "x"]) none]).specificity
        ∈ specList [.sel (.compound [.idSel "x"]) none]
    ∧ specLt (Simple.negation [.sel (.compound [.idSel "x"]) none]).specificity
        (ParsedSelector.sel (.compound [.idSel "x"]) none).specificity = false :=
  ⟨(c3_logical_specificity []).2.2.2.1 rfl,
   (c3_logical_specificity [.sel (.compound [.idSel "x"]) none]).2.2.2.2.1
     (by exact List.cons_ne_nil _ _),
   (c3_logical_specificity [.sel (.compound [.idSel "x"]) none]).2.2.2.2.2
     _ (List.mem_singleton.mpr rfl)⟩

/-- C4. The claim asserts that an invalid comma-branch inside a `:not()`
argument list makes the entire enclosing parse fail.  It is false for the
enclosing parse `:is(.z, :not(?))`: the `SelectorError` raised by the
strict `:not(?)` is caught by the forgiving `:is()` branch loop, the
branch containing the `:not()` is dropped, and the whole (strict,
top-level) parse succeeds with `:is(.z)`. -/
theorem c4_counterexample :
    parseTop 50 toksIsNotTop [] false false
      = ([.sel (.compound [.matchesAny [.sel (.compound [.classSel "z"]) none]]) none], none) :=
  rfl

/-- C4 (amended): the argument list of `:not()` is always parsed in strict
mode — whenever the strict re-entrant parse of the arguments ends in an
error, `parse_logical_combination` for `not` propagates exactly that
error, so an invalid branch fails the selector branch containing the
`:not()` (at top level in strict mode, the entire parse, as for
`:not(.a, ?)`).  An enclosing forgiving context such as `:is()` however
catches the propagated error and drops just the branch containing the
`:not()`, as in `:is(.z, :not(?))`. -/
theorem c4_not_is_strict :
    (∀ (fuel : Nat) (args : List Token) (namespaces : NS)
        (l : List ParsedSelector) (e : PError),
      parseTop fuel args namespaces false false = (l, some e) →
      parse_logical_combination (fuel + 1) args namespaces "not" = .error e)
    ∧ parseTop 50 toksNotTop [] false false
      = ([], some (.selector (some (.lit "?")) "expected a compound selector, got literal"))
    ∧ parseTop 50 toksIsNotTop [] false false
      = ([.sel (.compound [.matchesAny [.sel (.compound [.classSel "z"]) none]]) none], none) := by
  refine ⟨?_, rfl, rfl⟩
  intro fuel args namespaces l e h
  have hdef : parse_logical_combination (fuel + 1) args namespaces "not"
      = (match parseTop fuel args namespaces false false with
         | (_, some e) => Except.error e
         | (sels, none) =>
             Except.ok (Simple.negation (sels.filter (fun s => s.pseudoElement.isNone)))) := rfl
  rw [hdef, h]

/-- Witness for C4's amended theorem: `:not(?)` propagates the strict
error of its argument parse. -/
theorem c4_not_is_strict_witness :
    parse_logical_combination 21 [Token.lit "?"] [] "not"
      = .error (.selector (some (.lit "?")) "expected a compound selector, got literal") :=
  c4_not_is_strict.1 20 [Token.lit "?"] [] []
    (.selector (some (.lit "?")) "expected a compound selector, got literal") rfl

/-- The stored selector list of the four logical-combination classes. -/
def Simple.logicalList : Simple → List ParsedSelector
  | .negation l => l
  | .relational l => l
  | .matchesAny l => l
  | .specAdjust l => l
  | _ => []

/-- C9. For all four logical combinators, every successfully parsed branch
whose selector carries a pseudo-element is silently discarded: any
selector stored in the list of a node built by
`parse_logical_combination` has no pseudo-element, and `:not(::before)`
yields a `NegationSelector` with an empty list rather than an error. -/
theorem c9_pseudo_elements_discarded :
    (∀ (fuel : Nat) (args : List Token) (namespaces : NS) (name : String) (s : Simple),
      parse_logical_combination fuel args namespaces name = .ok s →
      ∀ x ∈ s.logicalList, x.pseudoElement = none)
    ∧ parse_logical_combination 50 [.lit ":", .lit ":", .ident "before" "before"] [] "not"
      = .ok (.negation []) := by
  refine ⟨?_, rfl⟩
  intro fuel args namespaces name s h x hx
  cases fuel with
  | zero => exact Except.noConfusion h
  | succ fuel =>
    simp only [parse_logical_combination] at h
    split at h
    · rcases hp : parseTop fuel args namespaces (!(name == "not")) (name == "has")
        with ⟨sels, err⟩
      rw [hp] at h
      cases err with
      | some e => exact Except.noConfusion h
      | none =>
        have hs := Except.ok.inj h
        subst hs
        have hlog : ∀ kept : List ParsedSelector,
            (if name == "is" then Simple.matchesAny kept
             else if name == "where" then Simple.specAdjust kept
             else if name == "not" then Simple.negation kept
             else Simple.relational kept).logicalList = kept := by
          intro kept
          repeat first | rfl | split
        rw [hlog] at hx
        have := (List.mem_filter.mp hx).2
        simpa [Option.isNone_iff_eq_none] using this
    · exact Except.noConfusion h

/-- Witness for C9: a kept branch of `:is(.a)` has no pseudo-element. -/
theorem c9_pseudo_elements_discarded_witness :
    (ParsedSelector.sel (.compound [.classSel "a"]) none).pseudoElement = none :=
  c9_pseudo_elements_discarded.1 50 [.lit ".", .ident "a" "a"] [] "is"
    (.matchesAny [.sel (.compound [.classSel "a"]) none]) rfl
    (.sel (.compound [.classSel "a"]) none) (by simp [Simple.logicalList])

/-- Whether a tree is a bare `CompoundSelector`. -/
def STree.isCompound : STree → Bool
  | .compound _ => true
  | .combined _ _ _ => false

/-- A tree is left-deep when the right child of every `CombinedSelector`
on its left spine is a bare compound (no right-nesting anywhere). -/
def STree.rightDeep : STree → Bool
  | .compound _ => true
  | .combined l _ r => l.rightDeep && r.isCompound

/-- A bare compound is left-deep. -/
theorem rightDeep_of_isCompound {t : STree} (h : t.isCompound = true) :
    t.rightDeep = true := by
  cases t with
  | compound ss => rfl
  | combined l c r => exact absurd h (by simp [STree.isCompound])

/-- `parse_compound_selector` only ever returns a bare compound tree. -/
theorem parse_compound_isCompound {fuel : Nat} {toks : List Token} {namespaces : NS}
    {t : STree} {pe : Option String} {rest : List Token}
    (h : parse_compound_selector fuel toks namespaces = .ok ((t, pe), rest)) :
    t.isCompound = true := by
  cases fuel with
  | zero => exact Except.noConfusion h
  | succ fuel =>
    simp only [parse_compound_selector] at h
    split at h
    · exact Except.noConfusion h
    · split at h
      · exact Except.noConfusion h
      · split at h
        · injection h with h1
          injection h1 with h2 h3
          injection h2 with h4 h5
          subst h4
          rfl
        · split at h
          · exact Except.noConfusion h
          · exact Except.noConfusion h

/-- The combinator loop folds compounds to the left: if the accumulated
tree is left-deep, the returned selector's tree is left-deep. -/
theorem parseSelectorLoop_rightDeep :
    ∀ (fuel : Nat) (namespaces : NS) (relative : Bool) (initialComb : String)
      (result : STree) (pe : Option String) (toks : List Token)
      (s : ParsedSelector) (rest : List Token),
      parseSelectorLoop fuel namespaces relative initialComb result pe toks = .ok (s, rest) →
      result.rightDeep = true → s.tree.rightDeep = true := by
  intro fuel
  induction fuel with
  | zero =>
    intro _ _ _ _ _ _ _ _ h _
    exact Except.noConfusion h
  | succ fuel ih =>
    intro namespaces relative initialComb result pe toks s rest h hr
    have hret : ∀ (pe2 : Option String) (l : List Token),
        (Except.ok ((if relative then ParsedSelector.rel initialComb (.sel result pe2)
              else ParsedSelector.sel result pe2), l)
          : Except (PError × List Token) (ParsedSelector × List Token))
          = Except.ok (s, rest) →
        s.tree.rightDeep = true := by
      intro pe2 l hh
      injection hh with h1
      injection h1 with h2 h3
      subst h2
      cases relative <;> simpa [ParsedSelector.tree] using hr
    simp only [parseSelectorLoop] at h
    split at h
    · exact hret _ _ h
    · split at h
      · exact hret _ _ h
      · split at h
        · exact hret _ _ h
        · split at h
          · split at h
            · exact Except.noConfusion h
            · rename_i compound pe2 rest2 hcomp
              refine ih _ _ _ _ _ _ _ _ h ?_
              simp [STree.rightDeep, hr, parse_compound_isCompound hcomp]
          · split at h
            · split at h
              · exact Except.noConfusion h
              · rename_i compound pe2 rest2 hcomp
                refine ih _ _ _ _ _ _ _ _ h ?_
                simp [STree.rightDeep, hr, parse_compound_isCompound hcomp]
            · exact hret _ _ h

/-- Every selector returned by `parse_selector` has a left-deep tree. -/
theorem parse_selector_rightDeep {fuel : Nat} {toks : List Token} {namespaces : NS}
    {relative : Bool} {s : ParsedSelector} {rest : List Token}
    (h : parse_selector fuel toks namespaces relative = .ok (s, rest)) :
    s.tree.rightDeep = true := by
  cases fuel with
  | zero => exact Except.noConfusion h
  | succ fuel =>
    simp only [parse_selector] at h
    split at h
    · exact Except.noConfusion h
    · rename_i result pe rest1 hcomp
      exact parseSelectorLoop_rightDeep fuel _ _ _ _ _ _ _ _ h
        (rightDeep_of_isCompound (parse_compound_isCompound hcomp))

/-- C6. The combinator parser builds a left-deep tree: every selector
produced by `parse_selector` satisfies the right-children-are-compounds
invariant (no right-nesting), and concretely `a b > c` parses to
`CombinedSelector(CombinedSelector(a, ' ', b), '>', c)`. -/
theorem c6_left_deep :
    (∀ (fuel : Nat) (toks : List Token) (namespaces : NS) (relative : Bool)
        (s : ParsedSelector) (rest : List Token),
      parse_selector fuel toks namespaces relative = .ok (s, rest) →
      s.tree.rightDeep = true)
    ∧ parseTop 50 toksABC [] false false = ([.sel treeABC none], none) :=
  ⟨fun _ _ _ _ _ _ h => parse_selector_rightDeep h, rfl⟩

/-- Witness for C6 at the parse of `a b > c`. -/
theorem c6_left_deep_witness :
    (ParsedSelector.sel treeABC none).tree.rightDeep = true :=
  c6_left_deep.1 49 toksABC [] false (.sel treeABC none) [] rfl

/-- C8. Attribute-selector parsing: `[ns|attr~="val"]` yields operator
`~=`, value `val` and the namespace resolved through the mapping;
`[attr]` yields no operator and no value; and a successful parse entails
that the bracket block's content was exhausted (up to whitespace) after
the attribute selector — content with tokens remaining past a complete
attribute selector, as in `[attr=v x]`, raises a `SelectorError` instead. -/
theorem c8_attribute_selector :
    parse_attribute_selector
        [.ident "ns" "ns", .lit "|", .ident "attr" "attr", .lit "~=", .str "val"] nsMapX
      = .ok (.attr (some "http://x") "attr" "attr" (some "~=") (some "val"))
    ∧ parse_attribute_selector [.ident "attr" "attr"] nsMapX
      = .ok (.attr (some "") "attr" "attr" none none)
    ∧ (∀ (content : List Token) (namespaces : NS) (a : Simple),
        parse_attribute_selector content namespaces = .ok a →
        ∃ rest, parse_attribute_inner content namespaces = .ok (a, rest)
          ∧ (skip_whitespace rest).1 = [])
    ∧ parse_attribute_selector
        [.ident "attr" "attr", .lit "=", .ident "v" "v", .ws, .ident "x" "x"] nsMapX
      = .error (.selector (some (.ident "x" "x")) "expected ], got ident") := by
  refine ⟨rfl, rfl, ?_, rfl⟩
  intro content namespaces a h
  simp only [parse_attribute_selector] at h
  split at h
  · exact Except.noConfusion h
  · rename_i a2 rest hinner
    split at h
    · rename_i hskip
      injection h with h1
      subst h1
      exact ⟨rest, hinner, hskip⟩
    · exact Except.noConfusion h

/-- Witness for C8: the parse of `[attr]` leaves only whitespace behind. -/
theorem c8_attribute_selector_witness :
    ∃ rest, parse_attribute_inner [Token.ident "attr" "attr"] nsMapX
        = .ok (.attr (some "") "attr" "attr" none none, rest)
      ∧ (skip_whitespace rest).1 = [] :=
  c8_attribute_selector.2.2.1 [Token.ident "attr" "attr"] nsMapX
    (.attr (some "") "attr" "attr" none none) rfl
